import Mathlib

/-!
Verification development for the OBJ parser in `src/loaders/obj/obj_parser.rs`
of the `poli-gon` repository.

The parser is shallowly embedded: Rust strings are modelled as lists of
characters, `f32` components as exact rationals (the parser only stores
components, it never computes with them), `i32`/`usize` machine arithmetic
as `Int`/`Nat` with explicit two's-complement wrapping where the source can
overflow (release-profile wrapping semantics), `HashSet<i32>` as `Finset Int`,
and the `Rc<RefCell<_>>` aliasing between `objects` and `current_object` is
resolved by keeping the already-pushed objects (`done`) apart from the
current one, with the source's `objects` vector being `done ++ [current]`.
The `todo!` macro invocations in `add_face` are modelled as a dedicated
`todo` outcome that propagates through the whole parse, mirroring a panic.
-/

namespace PoliGon

/-- Rust string slices are modelled as lists of characters. -/
abbrev Str := List Char

/-- Characters of a string literal. -/
def str (s : String) : Str := s.data

/-- Rust `str::split(c)`: splits at every occurrence of `c`, keeping empty
segments (so splitting the empty string yields one empty segment). -/
def splitChar (c : Char) : Str → List Str
  | [] => [[]]
  | x :: xs =>
    if x = c then [] :: splitChar c xs
    else
      match splitChar c xs with
      | [] => [[x]]
      | t :: ts => (x :: t) :: ts

/-- Splitting at every character satisfying `p`, keeping empty segments. -/
def splitPred (p : Char → Bool) : Str → List Str
  | [] => [[]]
  | x :: xs =>
    if p x then [] :: splitPred p xs
    else
      match splitPred p xs with
      | [] => [[x]]
      | t :: ts => (x :: t) :: ts

/-- Rust `str::split_whitespace`: splits at whitespace and discards the empty
segments. -/
def split_whitespace (s : Str) : List Str :=
  (splitPred Char.isWhitespace s).filter (· ≠ [])

/-- Removes a trailing carriage return, as Rust `str::lines` does for `\r\n`
line endings. -/
def stripCR (l : Str) : Str :=
  if l.getLast? = some '\r' then l.dropLast else l

/-- Rust `str::lines`: splits at `\n` (stripping a preceding `\r`); a final
trailing newline does not produce an extra empty line. -/
def lines (s : Str) : List Str :=
  if s = [] then []
  else
    let parts := splitChar '\n' s
    if s.getLast? = some '\n' then parts.dropLast.map stripCR
    else
      match parts.getLast? with
      | some last => parts.dropLast.map stripCR ++ [last]
      | none => []

/-- Numeric value of a digit string (callers check `isDigit` first). -/
def natOfDigits (ds : Str) : Nat :=
  ds.foldl (fun a c => 10 * a + (c.toNat - 48)) 0

/-- A non-empty all-digit string, parsed; `none` otherwise. -/
def digitsToNat : Str → Option Nat
  | [] => none
  | ds => if ds.all Char.isDigit then some (natOfDigits ds) else none

/-- Rust `<i32 as FromStr>::from_str` via `str::parse::<i32>()`: an optional
sign followed by at least one digit, rejected on `i32` overflow. -/
def parse_i32 (s : Str) : Option Int :=
  let signRest : Int × Str :=
    match s with
    | '+' :: r => (1, r)
    | '-' :: r => (-1, r)
    | r => (1, r)
  match digitsToNat signRest.2 with
  | none => none
  | some n =>
    let v : Int := signRest.1 * n
    if -(2 ^ 31) ≤ v ∧ v ≤ 2 ^ 31 - 1 then some v else none

/-- Leading digits of a string, and the remainder. -/
def takeDigits (s : Str) : Str × Str :=
  (s.takeWhile Char.isDigit, s.dropWhile Char.isDigit)

/-- Rust `<f32 as FromStr>::from_str` via `str::parse::<f32>()`, on its
decimal grammar: optional sign, digits with an optional fraction (at least
one digit overall), and an optional exponent. The value is kept as the exact
rational the decimal literal denotes, since the parser only stores
components and never computes with them; the `inf`/`nan` literals are not
modelled (no claim involves them). -/
def parse_f32 (s : Str) : Option Rat :=
  let signRest : Int × Str :=
    match s with
    | '+' :: r => (1, r)
    | '-' :: r => (-1, r)
    | r => (1, r)
  let ipRest := takeDigits signRest.2
  let fpRest : Str × Str :=
    match ipRest.2 with
    | '.' :: r => takeDigits r
    | r => ([], r)
  if ipRest.1 = [] ∧ fpRest.1 = [] then none
  else
    let mant : Nat := natOfDigits ipRest.1 * 10 ^ fpRest.1.length + natOfDigits fpRest.1
    match fpRest.2 with
    | [] => some (mkRat (signRest.1 * mant) (10 ^ fpRest.1.length))
    | e :: r =>
      if e = 'e' ∨ e = 'E' then
        let esignRest : Int × Str :=
          match r with
          | '+' :: r2 => (1, r2)
          | '-' :: r2 => (-1, r2)
          | r2 => (1, r2)
        let edsRest := takeDigits esignRest.2
        if edsRest.1 = [] ∨ edsRest.2 ≠ [] then none
        else
          let ev : Int := esignRest.1 * natOfDigits edsRest.1
          some (if 0 ≤ ev then
              mkRat (signRest.1 * mant * 10 ^ ev.toNat) (10 ^ fpRest.1.length)
            else mkRat (signRest.1 * mant) (10 ^ (fpRest.1.length + (-ev).toNat)))
      else none

/-- Two's-complement wrap of an integer into a 64-bit `usize` value. -/
def wrap64 (i : Int) : Nat := (i % (2 ^ 64 : Int)).toNat

/-- Two's-complement wrap of an integer into the `i32` range, as Rust `i32`
arithmetic does on overflow in the release profile. -/
def i32wrap (i : Int) : Int := (i + 2 ^ 31) % 2 ^ 32 - 2 ^ 31

/-- Rust `as i32` cast of a `usize` value: truncate to 32 bits, reinterpret
as signed. -/
def i32ofNat (n : Nat) : Int := i32wrap n

/-- Subset of `BufferGeometry` relevant to OBJ objects (`ObjGeometry`). -/
structure ObjGeometry where
  position : List Rat
  normal : List Rat
  uv : List Rat
deriving DecidableEq

/-- Construction `ObjGeometry::new`. -/
def ObjGeometry.new : ObjGeometry := ⟨[], [], []⟩

/-- Subset of `Object3d` relevant to OBJ objects (`ObjObject`). -/
structure ObjObject where
  name : Option Str
  from_declaration : Bool
  geometry : ObjGeometry
deriving DecidableEq

/-- Construction `ObjObject::new`. -/
def ObjObject.new (name : Option Str) (from_declaration : Bool) : ObjObject :=
  ⟨name, from_declaration, ObjGeometry.new⟩

/-- Construction `ObjObject::default`: anonymous, not from a declaration. -/
def ObjObject.mkDefault : ObjObject := ⟨none, false, ObjGeometry.new⟩

/-- Range type of `expected_num_args` (`RangeInclusive<u32>`). -/
structure RangeInclusive where
  lo : Nat
  hi : Nat
deriving DecidableEq

/-- Error type `ObjParseError`. -/
inductive ObjParseError where
  | InvalidSyntax (line_num : Nat) (expected_num_args : RangeInclusive) (expected_type : Str)
  | UnsupportedCommand (line_num : Nat) (command : Str)
  | InvalidReferenceNumber (line_num : Nat) (data_type : Str) (reference_number : Int)
deriving DecidableEq

/-- Configuration `ObjParseOptions`. -/
structure ObjParseOptions where
  error_on_unsupported_data_types : Bool
  error_on_invalid_reference_number : Bool
deriving DecidableEq

/-- Value of `ObjParseOptions::default()`: both flags `false`. -/
def ObjParseOptions.mkDefault : ObjParseOptions := ⟨false, false⟩

/-- Parse state `ObjParseState`. In the source, `objects` holds
`Rc<RefCell<ObjObject>>` and `current_object` aliases its last element; the
aliasing is resolved here by keeping the objects pushed before the current
one in `done`, so the source's `objects` vector is `done ++ [current_object]`
(see `ObjParseState.objects`). -/
structure ObjParseState where
  done : List ObjObject
  current_object : ObjObject
  vertices : List Rat
  normals : List Rat
  uvs : List Rat
deriving DecidableEq

/-- Construction `ObjParseState::new`: one default object, which is current. -/
def ObjParseState.new : ObjParseState := ⟨[], ObjObject.mkDefault, [], [], []⟩

/-- The source's `objects` vector, with the `current_object` alias resolved. -/
def ObjParseState.objects (st : ObjParseState) : List ObjObject :=
  st.done ++ [st.current_object]

/-- Method `ObjParseState::start_object`. -/
def ObjParseState.start_object (st : ObjParseState) (name : Option Str)
    (from_declaration : Bool) : ObjParseState :=
  if st.current_object.from_declaration = false then
    { st with current_object :=
        { st.current_object with name := name, from_declaration := from_declaration } }
  else
    { st with
        done := st.done ++ [st.current_object]
        current_object := ObjObject.new name from_declaration }

/-- Method `ObjParseState::vertex_reference_to_index`. Rust release-profile
semantics: `reference_number as usize - 1` wraps on underflow, the `i32`
sum in the negative branch wraps on overflow and is sign-extended by
`as usize`, and the final `3 *` multiplication wraps in `usize`;
`self.vertices.len() as i32 / 3` truncates toward zero. -/
def ObjParseState.vertex_reference_to_index (st : ObjParseState)
    (reference_number : Int) : Nat :=
  wrap64 (3 *
    (if 0 ≤ reference_number then (wrap64 (reference_number - 1) : Int)
     else (wrap64 (i32wrap (reference_number + (i32ofNat st.vertices.length).tdiv 3)) : Int)))

/-- Method `ObjParseState::normal_reference_to_index` (as for vertices, on the
normal pool). -/
def ObjParseState.normal_reference_to_index (st : ObjParseState)
    (reference_number : Int) : Nat :=
  wrap64 (3 *
    (if 0 ≤ reference_number then (wrap64 (reference_number - 1) : Int)
     else (wrap64 (i32wrap (reference_number + (i32ofNat st.normals.length).tdiv 3)) : Int)))

/-- Method `ObjParseState::uv_reference_to_index` (2 components per entry). -/
def ObjParseState.uv_reference_to_index (st : ObjParseState)
    (reference_number : Int) : Nat :=
  wrap64 (2 *
    (if 0 ≤ reference_number then (wrap64 (reference_number - 1) : Int)
     else (wrap64 (i32wrap (reference_number + (i32ofNat st.uvs.length).tdiv 2)) : Int)))

/-- Appends components to the current object's `position` stream. -/
def ObjParseState.pushPosition (st : ObjParseState) (xs : List Rat) : ObjParseState :=
  { st with current_object :=
      { st.current_object with geometry :=
          { st.current_object.geometry with
              position := st.current_object.geometry.position ++ xs } } }

/-- Appends components to the current object's `normal` stream. -/
def ObjParseState.pushNormal (st : ObjParseState) (xs : List Rat) : ObjParseState :=
  { st with current_object :=
      { st.current_object with geometry :=
          { st.current_object.geometry with
              normal := st.current_object.geometry.normal ++ xs } } }

/-- Appends components to the current object's `uv` stream. -/
def ObjParseState.pushUv (st : ObjParseState) (xs : List Rat) : ObjParseState :=
  { st with current_object :=
      { st.current_object with geometry :=
          { st.current_object.geometry with
              uv := st.current_object.geometry.uv ++ xs } } }

/-- The three consecutive pool components at `i`, `i+1`, `i+2`; `some` exactly
when all three `Vec::get` lookups succeed (one chunk of the `vertices` /
`normals` arrays of `add_vertex` / `add_normal`). -/
def readEntry3 (pool : List Rat) (i : Nat) : Option (Rat × Rat × Rat) :=
  match pool.get? i, pool.get? (i + 1), pool.get? (i + 2) with
  | some x, some y, some z => some (x, y, z)
  | _, _, _ => none

/-- The two consecutive pool components at `i`, `i+1` (one chunk of the `uvs`
array of `add_uv`). -/
def readEntry2 (pool : List Rat) (i : Nat) : Option (Rat × Rat) :=
  match pool.get? i, pool.get? (i + 1) with
  | some u, some v => some (u, v)
  | _, _ => none

/-- Method `ObjParseState::add_vertex`: resolves the three references against
the position pool and extends the current object's `position` stream one
corner at a time, returning the first invalid reference number; note the
source's early return leaves the corners already pushed in place. -/
def ObjParseState.add_vertex (st : ObjParseState) (v1 v2 v3 : Int) :
    ObjParseState × Option Int :=
  match readEntry3 st.vertices (st.vertex_reference_to_index v1) with
  | none => (st, some v1)
  | some e1 =>
    let st1 := st.pushPosition [e1.1, e1.2.1, e1.2.2]
    match readEntry3 st.vertices (st.vertex_reference_to_index v2) with
    | none => (st1, some v2)
    | some e2 =>
      let st2 := st1.pushPosition [e2.1, e2.2.1, e2.2.2]
      match readEntry3 st.vertices (st.vertex_reference_to_index v3) with
      | none => (st2, some v3)
      | some e3 => (st2.pushPosition [e3.1, e3.2.1, e3.2.2], none)

/-- Method `ObjParseState::add_normal`: as `add_vertex` on the normal pool,
but buffered — the `normal` stream is extended only when all three corners
resolve, so a failure mutates nothing. -/
def ObjParseState.add_normal (st : ObjParseState) (vn1 vn2 vn3 : Int) :
    ObjParseState × Option Int :=
  match readEntry3 st.normals (st.normal_reference_to_index vn1) with
  | none => (st, some vn1)
  | some e1 =>
    match readEntry3 st.normals (st.normal_reference_to_index vn2) with
    | none => (st, some vn2)
    | some e2 =>
      match readEntry3 st.normals (st.normal_reference_to_index vn3) with
      | none => (st, some vn3)
      | some e3 =>
        (st.pushNormal [e1.1, e1.2.1, e1.2.2, e2.1, e2.2.1, e2.2.2, e3.1, e3.2.1, e3.2.2],
         none)

/-- Method `ObjParseState::add_uv`: as `add_normal` on the texture pool (2
components per corner); buffered, so a failure mutates nothing. -/
def ObjParseState.add_uv (st : ObjParseState) (vt1 vt2 vt3 : Int) :
    ObjParseState × Option Int :=
  match readEntry2 st.uvs (st.uv_reference_to_index vt1) with
  | none => (st, some vt1)
  | some e1 =>
    match readEntry2 st.uvs (st.uv_reference_to_index vt2) with
    | none => (st, some vt2)
    | some e2 =>
      match readEntry2 st.uvs (st.uv_reference_to_index vt3) with
      | none => (st, some vt3)
      | some e3 => (st.pushUv [e1.1, e1.2, e2.1, e2.2, e3.1, e3.2], none)

/-- Method `ObjParseState::add_default_uv`: six zero components. -/
def ObjParseState.add_default_uv (st : ObjParseState) : ObjParseState :=
  st.pushUv [0, 0, 0, 0, 0, 0]

/-- Outcome of `ObjParseState::add_face`: `Ok((erroneous_vt, erroneous_vn))`,
`Err((data_type, reference_number))` (the state at the early return is kept
for fidelity, the caller discards it), or a `todo!` panic. -/
inductive FaceResult where
  | ok (st : ObjParseState) (erroneous_vt erroneous_vn : Option Int)
  | err (st : ObjParseState) (data_type : Str) (reference_number : Int)
  | todo (msg : Str)
deriving DecidableEq

/-- The vertex-normal stage of `ObjParseState::add_face` (the part after the
texture-coordinate handling): resolve `vn` if present, else hit the
`todo!` panic; on an invalid reference, error when strict, panic (the other
`todo!`) when lenient. -/
def addFaceNormalPart (st : ObjParseState) (erroneous_vt : Option Int)
    (vn : Option (Int × Int × Int)) (error_on_invalid_reference_number : Bool) :
    FaceResult :=
  match vn with
  | some g =>
    match st.add_normal g.1 g.2.1 g.2.2 with
    | (st2, none) => .ok st2 erroneous_vt none
    | (st2, some reference_number) =>
      if error_on_invalid_reference_number then .err st2 (str "vn") reference_number
      else .todo (str "Add face normal if there is an error parsing vertex normals.")
  | none => .todo (str "Add face normal if vertex normals are not provided.")

/-- Method `ObjParseState::add_face`: vertex stage (always fatal on an invalid
reference), then texture stage (configurable: error, or default plus record),
then the normal stage `addFaceNormalPart`. -/
def ObjParseState.add_face (st : ObjParseState) (v : Int × Int × Int)
    (vt vn : Option (Int × Int × Int)) (error_on_invalid_reference_number : Bool) :
    FaceResult :=
  match st.add_vertex v.1 v.2.1 v.2.2 with
  | (st1, some reference_number) => .err st1 (str "v") reference_number
  | (st1, none) =>
    match vt with
    | some t =>
      match st1.add_uv t.1 t.2.1 t.2.2 with
      | (st2, none) => addFaceNormalPart st2 none vn error_on_invalid_reference_number
      | (st2, some reference_number) =>
        if error_on_invalid_reference_number then .err st2 (str "vt") reference_number
        else
          addFaceNormalPart st2.add_default_uv (some reference_number) vn
            error_on_invalid_reference_number
    | none => addFaceNormalPart st1.add_default_uv none vn error_on_invalid_reference_number

/-- Mesh emitted for one non-empty object: `Mesh::new` over a
`BufferGeometry { position, normal, uv, indices: None }` with the object's
name, attached to the root group in order. -/
structure ObjMesh where
  name : Option Str
  position : List Rat
  normal : List Rat
  uv : List Rat
deriving DecidableEq

/-- Result type `ObjParseResult`: the root group is modelled by its ordered
children, and the two `HashSet<i32>` diagnostics as finite sets. -/
structure ObjParseResult where
  meshes : List ObjMesh
  default_uvs : Finset Int
  default_normals : Finset Int
deriving DecidableEq

/-- Outcome of the parser: `Ok`, `Err`, or a propagated `todo!` panic. -/
inductive PResult (α : Type) where
  | ok (val : α)
  | err (e : ObjParseError)
  | todo (msg : Str)
deriving DecidableEq

/-- Function `ObjParser::parse_i32` applied to the `j`-th `/`-separated
segment of a face corner: `iter.next().and_then(Self::parse_i32)` at the
`j`-th call on the corner's `Split` iterator. -/
def segRef (corner : List Str) (j : Nat) : Option Int :=
  (corner.get? j).bind parse_i32

/-- One slot of the `[0; 3].map(...)` in the face arm of `ObjParser::parse`:
`a.next().and_then(parse_i32).zip(b...).zip(c...)` is `some` exactly when the
`j`-th segment of all three corners parses. -/
def segTriple (a b c : List Str) (j : Nat) : Option (Int × Int × Int) :=
  match segRef a j, segRef b j, segRef c j with
  | some x, some y, some z => some (x, y, z)
  | _, _, _ => none

/-- Rust `slice::windows(2)` as a list of pairs. -/
def windows2 {α : Type} (l : List α) : List (α × α) := l.zip l.tail

/-- The fan-triangulation loop of the face arm of `ObjParser::parse`: for
each window `(b, c)` over the corners after the first corner `a`, skip the
triangle when the vertex triple does not parse, and otherwise commit it via
`add_face`, folding `erroneous_vt`/`erroneous_vn` into the diagnostic sets
or aborting with `InvalidReferenceNumber`. -/
def processFaceWindows (opts : ObjParseOptions) (line_num : Nat) (a : List Str) :
    List (List Str × List Str) → ObjParseState → Finset Int → Finset Int →
    PResult (ObjParseState × Finset Int × Finset Int)
  | [], st, du, dn => .ok (st, du, dn)
  | (b, c) :: ws, st, du, dn =>
    match segTriple a b c 0 with
    | none => processFaceWindows opts line_num a ws st du dn
    | some v =>
      match st.add_face v (segTriple a b c 1) (segTriple a b c 2)
          opts.error_on_invalid_reference_number with
      | .ok st' evt evn =>
        processFaceWindows opts line_num a ws st'
          (match evt with | some r => insert r du | none => du)
          (match evn with | some r => insert r dn | none => dn)
      | .err _ ty r => .err (.InvalidReferenceNumber line_num ty r)
      | .todo msg => .todo msg

/-- The `"f"` arm of `ObjParser::parse`: an empty corner list is skipped;
otherwise fan-triangulate around the first corner. -/
def processFace (opts : ObjParseOptions) (line_num : Nat)
    (corners : List (List Str)) (st : ObjParseState) (du dn : Finset Int) :
    PResult (ObjParseState × Finset Int × Finset Int) :=
  match corners with
  | [] => .ok (st, du, dn)
  | a :: rest => processFaceWindows opts line_num a (windows2 rest) st du dn

/-- One iteration of the line loop of `ObjParser::parse`: tokenize the line
and dispatch on the command keyword (the parsed-but-unused trailing `w`
arguments of `v`/`vt` have no effect and are omitted). -/
def processLine (opts : ObjParseOptions) (line_num : Nat) (line : Str)
    (st : ObjParseState) (du dn : Finset Int) :
    PResult (ObjParseState × Finset Int × Finset Int) :=
  match split_whitespace line with
  | [] => .ok (st, du, dn)
  | command :: args =>
    if command = str "v" then
      match (args.get? 0).bind parse_f32, (args.get? 1).bind parse_f32,
          (args.get? 2).bind parse_f32 with
      | some x, some y, some z => .ok ({ st with vertices := st.vertices ++ [x, y, z] }, du, dn)
      | _, _, _ => .err (.InvalidSyntax line_num ⟨3, 4⟩ (str "f32"))
    else if command = str "vn" then
      match (args.get? 0).bind parse_f32, (args.get? 1).bind parse_f32,
          (args.get? 2).bind parse_f32 with
      | some i, some j, some k => .ok ({ st with normals := st.normals ++ [i, j, k] }, du, dn)
      | _, _, _ => .err (.InvalidSyntax line_num ⟨3, 3⟩ (str "f32"))
    else if command = str "vt" then
      match (args.get? 0).bind parse_f32, (args.get? 1).bind parse_f32 with
      | some u, some v => .ok ({ st with uvs := st.uvs ++ [u, v] }, du, dn)
      | _, _ => .err (.InvalidSyntax line_num ⟨2, 3⟩ (str "f32"))
    else if command = str "f" then
      processFace opts line_num (args.map (splitChar '/')) st du dn
    else if command = str "o" ∨ command = str "g" then
      .ok (st.start_object (args.get? 0) true, du, dn)
    else if opts.error_on_unsupported_data_types then
      .err (.UnsupportedCommand line_num command)
    else .ok (st, du, dn)

/-- The line loop of `ObjParser::parse` over the enumerated lines, stopping
at the first error or panic. -/
def parseLines (opts : ObjParseOptions) :
    List Str → Nat → ObjParseState → Finset Int → Finset Int →
    PResult (ObjParseState × Finset Int × Finset Int)
  | [], _, st, du, dn => .ok (st, du, dn)
  | l :: ls, line_num, st, du, dn =>
    match processLine opts line_num l st du dn with
    | .ok (st', du', dn') => parseLines opts ls (line_num + 1) st' du' dn'
    | .err e => .err e
    | .todo msg => .todo msg

/-- The finalization loop of `ObjParser::parse`: objects with an empty
`position` stream are dropped, the rest become meshes attached to the root
group in order (`ObjObject::finalize` is a no-op). -/
def finalizeObjects (objs : List ObjObject) : List ObjMesh :=
  (objs.filter (fun o => o.geometry.position ≠ [])).map
    (fun o => ⟨o.name, o.geometry.position, o.geometry.normal, o.geometry.uv⟩)

/-- Function `ObjParser::parse`: line numbers are 1-based, the state starts
with the single default object, and the diagnostic sets start empty. -/
def ObjParser.parse (text : Str) (options : Option ObjParseOptions) :
    PResult ObjParseResult :=
  let opts := options.getD ObjParseOptions.mkDefault
  match parseLines opts (lines text) 1 ObjParseState.new ∅ ∅ with
  | .ok (st, du, dn) => .ok ⟨finalizeObjects st.objects, du, dn⟩
  | .err e => .err e
  | .todo msg => .todo msg

/-! ### Supporting lemmas -/

lemma wrap64_eq_toNat {i : Int} (h0 : 0 ≤ i) (h : i < 2 ^ 64) : wrap64 i = i.toNat := by
  unfold wrap64
  rw [Int.emod_eq_of_lt h0 (by exact_mod_cast h)]

lemma i32wrap_eq {i : Int} (h1 : -(2 ^ 31) ≤ i) (h2 : i < 2 ^ 31) : i32wrap i = i := by
  unfold i32wrap
  rw [Int.emod_eq_of_lt (by omega) (by omega)]
  omega

lemma i32ofNat_eq {n : Nat} (h : n < 2 ^ 31) : i32ofNat n = n := by
  unfold i32ofNat
  exact i32wrap_eq (by push_cast; omega) (by exact_mod_cast h)

lemma natCast_tdiv3 (m : Nat) : (m : Int).tdiv 3 = ((m / 3 : Nat) : Int) := rfl

lemma natCast_tdiv2 (m : Nat) : (m : Int).tdiv 2 = ((m / 2 : Nat) : Int) := rfl

/-! ### C2 -/

/-- State with three position-pool entries, used to exhibit the `r = 0`
behavior of reference resolution. -/
def stPool3 : ObjParseState :=
  { ObjParseState.new with vertices := [0, 0, 0, 1, 0, 0, 0, 1, 0] }

/-- C2, counterexample: the claim says a reference number `r ≤ 0` resolves to
entry `current_entry_count + r`, "in particular the r = 0 case follows the
relative-from-end rule". On a pool of 3 entries that rule puts `r = 0` at
entry `3 + 0`, component offset `9`; the code instead sends `r = 0` through
its non-negative branch, where `0 as usize - 1` wraps, yielding component
offset `2^64 - 3`. -/
theorem c2_counterexample :
    ¬ (stPool3.vertex_reference_to_index 0 =
        3 * (stPool3.vertices.length / 3 + 0)) := by
  decide

/-- C2, amended: a reference `r > 0` resolves to zero-based entry `r - 1` and
a reference `r < 0` to entry `current_entry_count + r`, evaluated against the
pool's size at the moment of resolution, for each of the three pools; but
`r = 0` is handled by the non-negative branch, whose `- 1` underflows and
wraps, producing component offset `2^64 - entry_size` instead of the
relative-from-end entry. -/
theorem c2_reference_resolution (st : ObjParseState) (r : Int)
    (hlo : -(2 ^ 31) ≤ r) (hhi : r ≤ 2 ^ 31 - 1)
    (hv : st.vertices.length < 2 ^ 31) (hn : st.normals.length < 2 ^ 31)
    (hu : st.uvs.length < 2 ^ 31) :
    (1 ≤ r →
      st.vertex_reference_to_index r = 3 * (r.toNat - 1) ∧
      st.normal_reference_to_index r = 3 * (r.toNat - 1) ∧
      st.uv_reference_to_index r = 2 * (r.toNat - 1)) ∧
    (r < 0 →
      (0 ≤ r + (st.vertices.length / 3 : Nat) →
        st.vertex_reference_to_index r = 3 * (r + (st.vertices.length / 3 : Nat)).toNat) ∧
      (0 ≤ r + (st.normals.length / 3 : Nat) →
        st.normal_reference_to_index r = 3 * (r + (st.normals.length / 3 : Nat)).toNat) ∧
      (0 ≤ r + (st.uvs.length / 2 : Nat) →
        st.uv_reference_to_index r = 2 * (r + (st.uvs.length / 2 : Nat)).toNat)) ∧
    (r = 0 →
      st.vertex_reference_to_index r = 2 ^ 64 - 3 ∧
      st.normal_reference_to_index r = 2 ^ 64 - 3 ∧
      st.uv_reference_to_index r = 2 ^ 64 - 2) := by
  refine ⟨?_, ?_, ?_⟩
  · intro h1
    have hif : (0 : Int) ≤ r := by omega
    have hw : wrap64 (r - 1) = (r - 1).toNat := wrap64_eq_toNat (by omega) (by omega)
    have h3 : wrap64 (3 * (((r - 1).toNat : Nat) : Int)) = 3 * (r.toNat - 1) := by
      rw [wrap64_eq_toNat (by push_cast; omega) (by push_cast; omega)]
      omega
    have h2 : wrap64 (2 * (((r - 1).toNat : Nat) : Int)) = 2 * (r.toNat - 1) := by
      rw [wrap64_eq_toNat (by push_cast; omega) (by push_cast; omega)]
      omega
    refine ⟨?_, ?_, ?_⟩ <;>
      simp only [ObjParseState.vertex_reference_to_index,
        ObjParseState.normal_reference_to_index, ObjParseState.uv_reference_to_index,
        if_pos hif, hw, h3, h2]
  · intro hneg
    have hif : ¬ (0 : Int) ≤ r := by omega
    refine ⟨?_, ?_, ?_⟩
    · intro hc
      simp only [ObjParseState.vertex_reference_to_index, if_neg hif,
        i32ofNat_eq hv, natCast_tdiv3]
      have hcb : r + (st.vertices.length / 3 : Nat) < 2 ^ 31 := by
        have := Nat.div_le_self st.vertices.length 3
        omega
      rw [i32wrap_eq (by omega) hcb, wrap64_eq_toNat hc (by omega),
        wrap64_eq_toNat (by push_cast; omega) (by push_cast; omega)]
      omega
    · intro hc
      simp only [ObjParseState.normal_reference_to_index, if_neg hif,
        i32ofNat_eq hn, natCast_tdiv3]
      have hcb : r + (st.normals.length / 3 : Nat) < 2 ^ 31 := by
        have := Nat.div_le_self st.normals.length 3
        omega
      rw [i32wrap_eq (by omega) hcb, wrap64_eq_toNat hc (by omega),
        wrap64_eq_toNat (by push_cast; omega) (by push_cast; omega)]
      omega
    · intro hc
      simp only [ObjParseState.uv_reference_to_index, if_neg hif,
        i32ofNat_eq hu, natCast_tdiv2]
      have hcb : r + (st.uvs.length / 2 : Nat) < 2 ^ 31 := by
        have := Nat.div_le_self st.uvs.length 2
        omega
      rw [i32wrap_eq (by omega) hcb, wrap64_eq_toNat hc (by omega),
        wrap64_eq_toNat (by push_cast; omega) (by push_cast; omega)]
      omega
  · rintro rfl
    refine ⟨?_, ?_, ?_⟩ <;>
      simp only [ObjParseState.vertex_reference_to_index,
        ObjParseState.normal_reference_to_index, ObjParseState.uv_reference_to_index,
        if_pos (le_refl (0 : Int))] <;> decide

/-- C2, witness: on the 3-entry pool, reference `2` resolves to component
offset `3`, reference `-1` to component offset `6` (the most recently added
entry), and reference `0` to the wrapped offset `2^64 - 3`. -/
theorem c2_witness :
    stPool3.vertex_reference_to_index 2 = 3 * ((2 : Int).toNat - 1) ∧
    stPool3.vertex_reference_to_index (-1) =
      3 * ((-1 : Int) + (stPool3.vertices.length / 3 : Nat)).toNat ∧
    stPool3.vertex_reference_to_index 0 = 2 ^ 64 - 3 := by
  refine ⟨?_, ?_, ?_⟩
  · exact ((c2_reference_resolution stPool3 2 (by decide) (by decide) (by decide)
      (by decide) (by decide)).1 (by decide)).1
  · exact ((c2_reference_resolution stPool3 (-1) (by decide) (by decide) (by decide)
      (by decide) (by decide)).2.1 (by decide)).1 (by decide)
  · exact ((c2_reference_resolution stPool3 0 (by decide) (by decide) (by decide)
      (by decide) (by decide)).2.2 rfl).1

/-! ### C5 -/

/-- C5: on `o <name>` / `g <name>` (`start_object` with
`from_declaration = true`), an undeclared current object is renamed in place
and marked declared with no new object created (so the first `o`/`g` of a
file names the implicit default object), while a declared current object
causes a fresh declared object to be pushed and made current. -/
theorem c5_start_object (st : ObjParseState) (name : Option Str) :
    (st.current_object.from_declaration = false →
      st.start_object name true =
        { st with current_object :=
            { st.current_object with name := name, from_declaration := true } } ∧
      (st.start_object name true).objects.length = st.objects.length) ∧
    (st.current_object.from_declaration = true →
      st.start_object name true =
        { st with
            done := st.done ++ [st.current_object]
            current_object := ObjObject.new name true } ∧
      (st.start_object name true).objects.length = st.objects.length + 1) ∧
    (ObjParseState.new.start_object name true).objects =
      [⟨name, true, ObjGeometry.new⟩] := by
  refine ⟨fun h => ?_, fun h => ?_, ?_⟩
  · rw [ObjParseState.start_object, if_pos h]
    exact ⟨rfl, by simp [ObjParseState.objects]⟩
  · rw [ObjParseState.start_object, if_neg (by rw [h]; simp)]
    exact ⟨rfl, by simp [ObjParseState.objects]⟩
  · rfl

/-- C5, witness: the first `o A` renames the default object in place (one
object before, one after), and a second `o B` pushes a new object. -/
theorem c5_witness :
    ObjParseState.new.start_object (some (str "A")) true =
      { ObjParseState.new with current_object :=
          { ObjParseState.new.current_object with
              name := some (str "A"), from_declaration := true } } ∧
    ((ObjParseState.new.start_object (some (str "A")) true).start_object
        (some (str "B")) true).objects.length =
      (ObjParseState.new.start_object (some (str "A")) true).objects.length + 1 := by
  refine ⟨((c5_start_object ObjParseState.new (some (str "A"))).1 rfl).1, ?_⟩
  exact ((c5_start_object (ObjParseState.new.start_object (some (str "A")) true)
    (some (str "B"))).2.1 (by decide)).2

/-! ### C7 -/

/-- C7: a face triangle whose three corners do not all supply a parseable
`vn` triple, or whose `vn` references are present but do not all resolve
while the invalid-reference flag is lenient, reaches the corresponding
`todo!` panic instead of synthesizing a face normal; a full parse of a face
without normals ends in that panic rather than in any value or error. -/
theorem c7_normal_todo (st : ObjParseState) (evt : Option Int)
    (g : Int × Int × Int) (b : Bool) (r : Int) :
    (addFaceNormalPart st evt none b =
      .todo (str "Add face normal if vertex normals are not provided.")) ∧
    ((st.add_normal g.1 g.2.1 g.2.2).2 = some r →
      addFaceNormalPart st evt (some g) false =
        .todo (str "Add face normal if there is an error parsing vertex normals.")) ∧
    (ObjParser.parse (str "v 0 0 0\nf 1 1 1") none =
      .todo (str "Add face normal if vertex normals are not provided.")) := by
  refine ⟨rfl, fun h => ?_, by decide⟩
  rw [addFaceNormalPart]
  rcases hn : st.add_normal g.1 g.2.1 g.2.2 with ⟨st2, o⟩
  rw [hn] at h
  simp only at h
  subst h
  rfl

/-- C7, witness: with an empty normal pool, the `vn` triple `(1,1,1)` fails
to resolve and the lenient path hits the `todo!` panic. -/
theorem c7_witness :
    addFaceNormalPart ObjParseState.new none (some (1, 1, 1)) false =
      .todo (str "Add face normal if there is an error parsing vertex normals.") :=
  (c7_normal_todo ObjParseState.new none (1, 1, 1) false 1).2.1 (by decide)

/-! ### C8 -/

lemma readEntry3_eq_none_iff (pool : List Rat) (i : Nat) :
    readEntry3 pool i = none ↔ pool.length ≤ i + 2 := by
  constructor
  · intro h
    by_contra hlt
    push_neg at hlt
    have h0 := List.get?_eq_get (show i < pool.length by omega)
    have h1 := List.get?_eq_get (show i + 1 < pool.length by omega)
    have h2 := List.get?_eq_get (show i + 2 < pool.length by omega)
    rw [readEntry3, h0, h1, h2] at h
    simp at h
  · intro h
    rw [readEntry3, show pool.get? (i + 2) = none from List.get?_eq_none.mpr (by omega)]
    rcases pool.get? i with _ | x <;> rcases pool.get? (i + 1) with _ | y <;> rfl

lemma readEntry2_eq_none_iff (pool : List Rat) (i : Nat) :
    readEntry2 pool i = none ↔ pool.length ≤ i + 1 := by
  constructor
  · intro h
    by_contra hlt
    push_neg at hlt
    have h0 := List.get?_eq_get (show i < pool.length by omega)
    have h1 := List.get?_eq_get (show i + 1 < pool.length by omega)
    rw [readEntry2, h0, h1] at h
    simp at h
  · intro h
    rw [readEntry2, show pool.get? (i + 1) = none from List.get?_eq_none.mpr (by omega)]
    rcases pool.get? i with _ | x <;> rfl

lemma readEntry3_lt_of_eq_some {pool : List Rat} {i : Nat} {e : Rat × Rat × Rat}
    (h : readEntry3 pool i = some e) : i + 2 < pool.length := by
  by_contra hle
  push_neg at hle
  rw [(readEntry3_eq_none_iff pool i).mpr hle] at h
  cases h

lemma readEntry2_lt_of_eq_some {pool : List Rat} {i : Nat} {e : Rat × Rat}
    (h : readEntry2 pool i = some e) : i + 1 < pool.length := by
  by_contra hle
  push_neg at hle
  rw [(readEntry2_eq_none_iff pool i).mpr hle] at h
  cases h

/-- C8: reference resolution is a total function into component offsets—the
failure point is never the resolution itself but the per-component bounds
check at the point of use: for each of `add_vertex` / `add_uv` /
`add_normal`, the corner succeeds exactly when every single component offset
of every corner (entry offset through entry offset plus 2, or plus 1 for
uvs) is inside the pool, so an offset even one component past the end is
detected. -/
theorem c8_bounds_per_component (st : ObjParseState) (r1 r2 r3 : Int) :
    ((st.add_vertex r1 r2 r3).2 = none ↔
      st.vertex_reference_to_index r1 + 2 < st.vertices.length ∧
      st.vertex_reference_to_index r2 + 2 < st.vertices.length ∧
      st.vertex_reference_to_index r3 + 2 < st.vertices.length) ∧
    ((st.add_uv r1 r2 r3).2 = none ↔
      st.uv_reference_to_index r1 + 1 < st.uvs.length ∧
      st.uv_reference_to_index r2 + 1 < st.uvs.length ∧
      st.uv_reference_to_index r3 + 1 < st.uvs.length) ∧
    ((st.add_normal r1 r2 r3).2 = none ↔
      st.normal_reference_to_index r1 + 2 < st.normals.length ∧
      st.normal_reference_to_index r2 + 2 < st.normals.length ∧
      st.normal_reference_to_index r3 + 2 < st.normals.length) := by
  refine ⟨?_, ?_, ?_⟩
  · rw [ObjParseState.add_vertex]
    rcases h1 : readEntry3 st.vertices (st.vertex_reference_to_index r1) with _ | e1
    · rw [readEntry3_eq_none_iff] at h1
      simp only
      constructor
      · intro h; cases h
      · intro h; omega
    · have hb1 := readEntry3_lt_of_eq_some h1
      rcases h2 : readEntry3 st.vertices (st.vertex_reference_to_index r2) with _ | e2
      · rw [readEntry3_eq_none_iff] at h2
        simp only
        constructor
        · intro h; cases h
        · intro h; omega
      · have hb2 := readEntry3_lt_of_eq_some h2
        rcases h3 : readEntry3 st.vertices (st.vertex_reference_to_index r3) with _ | e3
        · rw [readEntry3_eq_none_iff] at h3
          simp only
          constructor
          · intro h; cases h
          · intro h; omega
        · have hb3 := readEntry3_lt_of_eq_some h3
          simp only
          exact ⟨fun _ => ⟨hb1, hb2, hb3⟩, fun _ => trivial⟩
  · rw [ObjParseState.add_uv]
    rcases h1 : readEntry2 st.uvs (st.uv_reference_to_index r1) with _ | e1
    · rw [readEntry2_eq_none_iff] at h1
      simp only
      constructor
      · intro h; cases h
      · intro h; omega
    · have hb1 := readEntry2_lt_of_eq_some h1
      rcases h2 : readEntry2 st.uvs (st.uv_reference_to_index r2) with _ | e2
      · rw [readEntry2_eq_none_iff] at h2
        simp only
        constructor
        · intro h; cases h
        · intro h; omega
      · have hb2 := readEntry2_lt_of_eq_some h2
        rcases h3 : readEntry2 st.uvs (st.uv_reference_to_index r3) with _ | e3
        · rw [readEntry2_eq_none_iff] at h3
          simp only
          constructor
          · intro h; cases h
          · intro h; omega
        · have hb3 := readEntry2_lt_of_eq_some h3
          simp only
          exact ⟨fun _ => ⟨hb1, hb2, hb3⟩, fun _ => trivial⟩
  · rw [ObjParseState.add_normal]
    rcases h1 : readEntry3 st.normals (st.normal_reference_to_index r1) with _ | e1
    · rw [readEntry3_eq_none_iff] at h1
      simp only
      constructor
      · intro h; cases h
      · intro h; omega
    · have hb1 := readEntry3_lt_of_eq_some h1
      rcases h2 : readEntry3 st.normals (st.normal_reference_to_index r2) with _ | e2
      · rw [readEntry3_eq_none_iff] at h2
        simp only
        constructor
        · intro h; cases h
        · intro h; omega
      · have hb2 := readEntry3_lt_of_eq_some h2
        rcases h3 : readEntry3 st.normals (st.normal_reference_to_index r3) with _ | e3
        · rw [readEntry3_eq_none_iff] at h3
          simp only
          constructor
          · intro h; cases h
          · intro h; omega
        · have hb3 := readEntry3_lt_of_eq_some h3
          simp only
          exact ⟨fun _ => ⟨hb1, hb2, hb3⟩, fun _ => trivial⟩

/-! ### C1 -/

/-- C1: in the fan-triangulation loop, a triangle whose vertex triple does
not parse is silently skipped—the remaining windows of the same face are
processed from the unchanged state and sets—while a vertex triple that
parses but fails to resolve aborts with
`InvalidReferenceNumber{line, "v", r}` whatever the configuration flags. -/
theorem c1_vertex_corner_policy (opts : ObjParseOptions) (line_num : Nat)
    (a b c : List Str) (ws : List (List Str × List Str))
    (st : ObjParseState) (du dn : Finset Int) :
    (segTriple a b c 0 = none →
      processFaceWindows opts line_num a ((b, c) :: ws) st du dn =
        processFaceWindows opts line_num a ws st du dn) ∧
    (∀ v1 v2 v3 r, segTriple a b c 0 = some (v1, v2, v3) →
      (st.add_vertex v1 v2 v3).2 = some r →
      processFaceWindows opts line_num a ((b, c) :: ws) st du dn =
        .err (.InvalidReferenceNumber line_num (str "v") r)) := by
  constructor
  · intro h
    rw [processFaceWindows, h]
  · intro v1 v2 v3 r hseg herr
    rcases hv : st.add_vertex v1 v2 v3 with ⟨st1, o⟩
    rw [hv] at herr
    simp only at herr
    subst herr
    rw [processFaceWindows, hseg]
    simp only [ObjParseState.add_face, hv]

/-- C1, witness: the window whose first corner is the unparseable `x` is
skipped and the next window still aborts the parse on the out-of-range
vertex reference `2` (pool of one entry), under both settings of the
invalid-reference flag. -/
theorem c1_witness :
    (processFaceWindows ObjParseOptions.mkDefault 7 (splitChar '/' (str "x"))
        ((splitChar '/' (str "1"), splitChar '/' (str "1")) ::
          (splitChar '/' (str "1"), splitChar '/' (str "1")) :: [])
        { ObjParseState.new with vertices := [0, 0, 0] } ∅ ∅ =
      processFaceWindows ObjParseOptions.mkDefault 7 (splitChar '/' (str "x"))
        ((splitChar '/' (str "1"), splitChar '/' (str "1")) :: [])
        { ObjParseState.new with vertices := [0, 0, 0] } ∅ ∅) ∧
    (processFaceWindows ⟨false, true⟩ 7 (splitChar '/' (str "2"))
        ((splitChar '/' (str "1"), splitChar '/' (str "1")) :: [])
        { ObjParseState.new with vertices := [0, 0, 0] } ∅ ∅ =
      .err (.InvalidReferenceNumber 7 (str "v") 2)) := by
  constructor
  · exact (c1_vertex_corner_policy ObjParseOptions.mkDefault 7 (splitChar '/' (str "x"))
      (splitChar '/' (str "1")) (splitChar '/' (str "1"))
      ((splitChar '/' (str "1"), splitChar '/' (str "1")) :: [])
      { ObjParseState.new with vertices := [0, 0, 0] } ∅ ∅).1 (by decide)
  · exact (c1_vertex_corner_policy ⟨false, true⟩ 7 (splitChar '/' (str "2"))
      (splitChar '/' (str "1")) (splitChar '/' (str "1")) []
      { ObjParseState.new with vertices := [0, 0, 0] } ∅ ∅).2 2 1 1 2
      (by decide) (by decide)

/-! ### C3 -/

lemma add_uv_fst_of_err (st : ObjParseState) (a b c : Int) {r : Int}
    (h : (st.add_uv a b c).2 = some r) : (st.add_uv a b c).1 = st := by
  rw [ObjParseState.add_uv] at h ⊢
  rcases h1 : readEntry2 st.uvs (st.uv_reference_to_index a) with _ | e1
  · rfl
  · rw [h1] at h
    rcases h2 : readEntry2 st.uvs (st.uv_reference_to_index b) with _ | e2
    · rfl
    · rw [h2] at h
      rcases h3 : readEntry2 st.uvs (st.uv_reference_to_index c) with _ | e3
      · rfl
      · rw [h3] at h
        cases h

lemma add_normal_fst_uv (st : ObjParseState) (a b c : Int) :
    ((st.add_normal a b c).1).current_object.geometry.uv =
      st.current_object.geometry.uv := by
  rw [ObjParseState.add_normal]
  rcases readEntry3 st.normals (st.normal_reference_to_index a) with _ | e1
  · rfl
  · rcases readEntry3 st.normals (st.normal_reference_to_index b) with _ | e2
    · rfl
    · rcases readEntry3 st.normals (st.normal_reference_to_index c) with _ | e3
      · rfl
      · rfl

/-- C3: a triangle whose three corners do not all supply a parseable uv
segment gets the `(0,0)` default appended for all three corners with
nothing recorded; when all three uv references parse but one fails to
resolve, the strict flag aborts with `InvalidReferenceNumber{_, "vt", r}`
while the lenient flag appends the same default and hands `r` on, the
normal stage preserving both the uv stream and the handed-on diagnostic,
which the face loop then inserts into the defaulted-uv set. -/
theorem c3_uv_policy (st stv : ObjParseState) (v t : Int × Int × Int)
    (vnT : Option (Int × Int × Int)) (eoirn : Bool)
    (hv : st.add_vertex v.1 v.2.1 v.2.2 = (stv, none)) :
    (st.add_face v none vnT eoirn =
        addFaceNormalPart stv.add_default_uv none vnT eoirn ∧
      stv.add_default_uv.current_object.geometry.uv =
        stv.current_object.geometry.uv ++ [0, 0, 0, 0, 0, 0]) ∧
    (∀ r, (stv.add_uv t.1 t.2.1 t.2.2).2 = some r →
      st.add_face v (some t) vnT true = .err stv (str "vt") r ∧
      st.add_face v (some t) vnT false =
        addFaceNormalPart stv.add_default_uv (some r) vnT false) ∧
    (∀ evt st' evt' evn',
      addFaceNormalPart stv.add_default_uv evt vnT eoirn = .ok st' evt' evn' →
      evt' = evt ∧
      st'.current_object.geometry.uv =
        stv.add_default_uv.current_object.geometry.uv) ∧
    (∀ lineNum aC bC cC ws opts st' r evn du dn,
      segTriple aC bC cC 0 = some v →
      segTriple aC bC cC 1 = some t →
      st.add_face v (some t) (segTriple aC bC cC 2)
          opts.error_on_invalid_reference_number = .ok st' (some r) evn →
      processFaceWindows opts lineNum aC ((bC, cC) :: ws) st du dn =
        processFaceWindows opts lineNum aC ws st' (insert r du)
          (match evn with | some rn => insert rn dn | none => dn)) := by
  refine ⟨⟨?_, ?_⟩, ?_, ?_, ?_⟩
  · simp only [ObjParseState.add_face, hv]
  · simp [ObjParseState.add_default_uv, ObjParseState.pushUv]
  · intro r hr
    rcases hu : stv.add_uv t.1 t.2.1 t.2.2 with ⟨st2, o⟩
    rw [hu] at hr
    simp only at hr
    subst hr
    have hst2 : st2 = stv := by
      have h5 := add_uv_fst_of_err stv t.1 t.2.1 t.2.2 (by rw [hu])
      rw [hu] at h5
      exact h5
    rw [hst2] at hu
    constructor
    · simp only [ObjParseState.add_face, hv, hu]
      rfl
    · simp only [ObjParseState.add_face, hv, hu]
      rfl
  · intro evt st' evt' evn' h
    rw [addFaceNormalPart.eq_def] at h
    rcases vnT with _ | g
    · cases h
    · simp only at h
      rcases hn : stv.add_default_uv.add_normal g.1 g.2.1 g.2.2 with ⟨st2, o⟩
      rw [hn] at h
      rcases o with _ | rr
      · simp only at h
        injection h with h1 h2 h3
        subst h1
        subst h2
        have h4 := add_normal_fst_uv stv.add_default_uv g.1 g.2.1 g.2.2
        rw [hn] at h4
        simp only at h4
        exact ⟨rfl, h4⟩
      · rcases eoirn <;> simp only at h <;> cases h
  · intro lineNum aC bC cC ws opts st' r evn du dn h0 h1 hface
    rw [processFaceWindows, h0]
    simp only
    rw [h1, hface]

/-- State with one position entry and an empty texture pool, for the C3
witness. -/
def stOneVertex : ObjParseState :=
  { done := [], current_object := ⟨none, false, ⟨[], [], []⟩⟩,
    vertices := [5, 6, 7], normals := [], uvs := [] }

/-- State `stOneVertex` after one triangle's positions were committed. -/
def stOneVertexPushed : ObjParseState :=
  { done := [],
    current_object := ⟨none, false, ⟨[5, 6, 7, 5, 6, 7, 5, 6, 7], [], []⟩⟩,
    vertices := [5, 6, 7], normals := [], uvs := [] }

/-- C3, witness: with an empty texture pool the uv reference `1` is out of
bounds, so under the strict flag the face aborts with a `"vt"` reference
error after the positions were committed. -/
theorem c3_witness :
    stOneVertex.add_face (1, 1, 1) (some (1, 1, 1)) none true =
      .err stOneVertexPushed (str "vt") 1 :=
  ((c3_uv_policy stOneVertex stOneVertexPushed (1, 1, 1) (1, 1, 1) none true
    (by decide)).2.1 1 (by decide)).1

/-! ### C9 -/

/-- C9: a `v`, `vn` or `vt` line whose required arguments are absent or do
not parse as floating-point numbers makes the line handler return
`InvalidSyntax` with the command's argument range and `"f32"` (the handler
returns before touching any pool), and an error from any line makes the
line loop return it immediately, so no later line is processed. -/
theorem c9_invalid_syntax (opts : ObjParseOptions) (line_num : Nat) (line : Str)
    (st : ObjParseState) (du dn : Finset Int) (command : Str) (args : List Str)
    (hsplit : split_whitespace line = command :: args) :
    (command = str "v" →
      ((args.get? 0).bind parse_f32 = none ∨ (args.get? 1).bind parse_f32 = none ∨
        (args.get? 2).bind parse_f32 = none) →
      processLine opts line_num line st du dn =
        .err (.InvalidSyntax line_num ⟨3, 4⟩ (str "f32"))) ∧
    (command = str "vn" →
      ((args.get? 0).bind parse_f32 = none ∨ (args.get? 1).bind parse_f32 = none ∨
        (args.get? 2).bind parse_f32 = none) →
      processLine opts line_num line st du dn =
        .err (.InvalidSyntax line_num ⟨3, 3⟩ (str "f32"))) ∧
    (command = str "vt" →
      ((args.get? 0).bind parse_f32 = none ∨ (args.get? 1).bind parse_f32 = none) →
      processLine opts line_num line st du dn =
        .err (.InvalidSyntax line_num ⟨2, 3⟩ (str "f32"))) ∧
    (∀ ls e, processLine opts line_num line st du dn = .err e →
      parseLines opts (line :: ls) line_num st du dn = .err e) := by
  refine ⟨?_, ?_, ?_, ?_⟩
  · rintro rfl hbad
    rcases h0 : (args.get? 0).bind parse_f32 with _ | x <;>
      rcases h1 : (args.get? 1).bind parse_f32 with _ | y <;>
      rcases h2 : (args.get? 2).bind parse_f32 with _ | z <;>
      first
        | (rw [h0, h1, h2] at hbad
           rcases hbad with h | h | h <;> exact (Option.some_ne_none _ h).elim)
        | (simp only [List.get?_eq_getElem?] at h0 h1 h2
           simp [processLine, hsplit, h0, h1, h2])
  · rintro rfl hbad
    rcases h0 : (args.get? 0).bind parse_f32 with _ | x <;>
      rcases h1 : (args.get? 1).bind parse_f32 with _ | y <;>
      rcases h2 : (args.get? 2).bind parse_f32 with _ | z <;>
      first
        | (rw [h0, h1, h2] at hbad
           rcases hbad with h | h | h <;> exact (Option.some_ne_none _ h).elim)
        | (simp only [List.get?_eq_getElem?] at h0 h1 h2
           simp [processLine, hsplit, h0, h1, h2,
             show ¬ str "vn" = str "v" from by decide])
  · rintro rfl hbad
    rcases h0 : (args.get? 0).bind parse_f32 with _ | u <;>
      rcases h1 : (args.get? 1).bind parse_f32 with _ | w <;>
      first
        | (rw [h0, h1] at hbad
           rcases hbad with h | h <;> exact (Option.some_ne_none _ h).elim)
        | (simp only [List.get?_eq_getElem?] at h0 h1
           simp [processLine, hsplit, h0, h1,
             show ¬ str "vt" = str "v" from by decide,
             show ¬ str "vt" = str "vn" from by decide])
  · intro ls e h
    rw [parseLines, h]

/-- C9, witness: the line `v 1 x` fails on its unparseable `y` argument with
the `3..=4` range, and the error is what the loop returns with a valid line
pending behind it. -/
theorem c9_witness :
    processLine ObjParseOptions.mkDefault 1 (str "v 1 x") ObjParseState.new ∅ ∅ =
      .err (.InvalidSyntax 1 ⟨3, 4⟩ (str "f32")) ∧
    parseLines ObjParseOptions.mkDefault (str "v 1 x" :: [str "v 1 2 3"]) 1
        ObjParseState.new ∅ ∅ =
      .err (.InvalidSyntax 1 ⟨3, 4⟩ (str "f32")) := by
  have hmain := c9_invalid_syntax ObjParseOptions.mkDefault 1 (str "v 1 x")
    ObjParseState.new ∅ ∅ (str "v") [str "1", str "x"] (by decide)
  have h1 := hmain.1 rfl (by decide)
  exact ⟨h1, hmain.2.2.2 [str "v 1 2 3"] _ h1⟩

/-! ### C4 -/

lemma zip_get? {α β : Type} (l1 : List α) (l2 : List β) (i : Nat) :
    (l1.zip l2).get? i =
      (l1.get? i).bind (fun x => (l2.get? i).map (fun y => (x, y))) := by
  induction l1 generalizing l2 i with
  | nil => simp
  | cons x xs ih =>
    cases l2 with
    | nil => simp
    | cons y ys =>
      cases i with
      | zero => simp
      | succ n => simpa using ih ys n

/-- C4: a face with corners `a :: rest`, at least 3 in all, is
fan-triangulated into exactly `N - 2` windows whose `i`-th window pairs
`corner[i+1]` with `corner[i+2]` (each processed against the fixed first
corner `a`); a face with fewer than 3 corners contributes nothing and
produces no error; and the spec's quad example yields one mesh of 18
position floats, the duplicated corner triples `(1,2,3)` and `(1,3,4)`. -/
theorem c4_fan_triangulation :
    (∀ (a : List Str) (rest : List (List Str)),
      (windows2 rest).length = (a :: rest).length - 2 ∧
      (∀ i, (windows2 rest).get? i =
        ((a :: rest).get? (i + 1)).bind
          (fun bC => ((a :: rest).get? (i + 2)).map (fun cC => (bC, cC))))) ∧
    (∀ opts line_num (corners : List (List Str)) st du dn,
      corners.length < 3 →
      processFace opts line_num corners st du dn = .ok (st, du, dn)) ∧
    (ObjParser.parse
        (str "v 0 0 0\nv 1 0 0\nv 1 1 0\nv 0 1 0\nvn 0 0 1\nf 1//1 2//1 3//1 4//1")
        none =
      .ok ⟨[⟨none,
        [0, 0, 0, 1, 0, 0, 1, 1, 0, 0, 0, 0, 1, 1, 0, 0, 1, 0],
        [0, 0, 1, 0, 0, 1, 0, 0, 1, 0, 0, 1, 0, 0, 1, 0, 0, 1],
        [0, 0, 0, 0, 0, 0, 0, 0, 0, 0, 0, 0]⟩], ∅, ∅⟩) := by
  refine ⟨fun a rest => ⟨?_, fun i => ?_⟩, fun opts line_num corners st du dn h => ?_, ?_⟩
  · rw [windows2, List.length_zip, List.length_tail]
    simp only [List.length_cons]
    omega
  · rw [windows2, zip_get?]
    rcases rest with _ | ⟨b, t⟩
    · simp
    · rfl
  · rcases corners with _ | ⟨a, _ | ⟨b, _ | ⟨c, t⟩⟩⟩
    · rfl
    · rfl
    · rfl
    · simp only [List.length_cons] at h
      omega
  · decide

/-- C4, witness: a quad's corner list gives 2 windows, the second pairing
corners 3 and 4, and a two-corner face line leaves state and diagnostics
untouched. -/
theorem c4_witness :
    (windows2 [[str "2"], [str "3"], [str "4"]]).length = 2 ∧
    (windows2 [[str "2"], [str "3"], [str "4"]]).get? 1 =
      some ([str "3"], [str "4"]) ∧
    processFace ObjParseOptions.mkDefault 3 [[str "1"], [str "2"]]
      ObjParseState.new ∅ ∅ = .ok (ObjParseState.new, ∅, ∅) := by
  obtain ⟨h1, h2, h3⟩ := c4_fan_triangulation
  refine ⟨(h1 [str "1"] [[str "2"], [str "3"], [str "4"]]).1, ?_, ?_⟩
  · rw [(h1 [str "1"] [[str "2"], [str "3"], [str "4"]]).2 1]
    decide
  · exact h2 ObjParseOptions.mkDefault 3 [[str "1"], [str "2"]]
      ObjParseState.new ∅ ∅ (by decide)

/-! ### C6 -/

/-- Input with a face before `o A` and a face after it. -/
def inputFacesThenO : Str :=
  str "v 0 0 0\nv 1 0 0\nv 1 1 0\nvn 0 0 1\nf 1//1 2//1 3//1\no A\nf 1//1 2//1 3//1"

/-- Input where `o A` precedes the only face. -/
def inputOThenFaces : Str :=
  str "v 0 0 0\nv 1 0 0\nv 1 1 0\nvn 0 0 1\no A\nf 1//1 2//1 3//1"

/-- The single mesh that parsing `inputFacesThenO` produces: both the
pre-`o` and the post-`o` triangle live in the object named `A`. -/
def meshBothFaces : ObjMesh :=
  ⟨some (str "A"),
   [0, 0, 0, 1, 0, 0, 1, 1, 0, 0, 0, 0, 1, 0, 0, 1, 1, 0],
   [0, 0, 1, 0, 0, 1, 0, 0, 1, 0, 0, 1, 0, 0, 1, 0, 0, 1],
   [0, 0, 0, 0, 0, 0, 0, 0, 0, 0, 0, 0]⟩

/-- The single mesh that parsing `inputOThenFaces` produces. -/
def meshOneFace : ObjMesh :=
  ⟨some (str "A"),
   [0, 0, 0, 1, 0, 0, 1, 1, 0],
   [0, 0, 1, 0, 0, 1, 0, 0, 1],
   [0, 0, 0, 0, 0, 0]⟩

/-- C6, counterexample: on a file with a face before `o A` and a face after,
the claim expects one object named `A` plus one anonymous object holding the
pre-`o` face; the parse instead renames the default object—faces and all—to
`A`, so the result holds exactly one mesh and no anonymous one. -/
theorem c6_counterexample :
    ObjParser.parse inputFacesThenO none = .ok ⟨[meshBothFaces], ∅, ∅⟩ ∧
    ¬ (∃ res, ObjParser.parse inputFacesThenO none = .ok res ∧
        res.meshes.length = 2) ∧
    ¬ (∃ res m, ObjParser.parse inputFacesThenO none = .ok res ∧
        m ∈ res.meshes ∧ m.name = none) := by
  have hp : ObjParser.parse inputFacesThenO none = .ok ⟨[meshBothFaces], ∅, ∅⟩ := by
    decide
  refine ⟨hp, ?_, ?_⟩
  · rintro ⟨res, hres, hlen⟩
    rw [hp] at hres
    injection hres with h
    subst h
    cases hlen
  · rintro ⟨res, m, hres, hmem, hname⟩
    rw [hp] at hres
    injection hres with h
    subst h
    simp only [List.mem_singleton] at hmem
    subst hmem
    cases hname

/-- C6, amended: an `o A` met while the current object is still undeclared
renames that object in place, keeping its geometry, so faces that precede
`o A` end up inside the object named `A` and the result of either input
holds exactly the one mesh named `A`. -/
theorem c6_object_segmentation :
    (∀ (st : ObjParseState) (name : Option Str),
      st.current_object.from_declaration = false →
      (st.start_object name true).objects.map (fun o => (o.name, o.geometry)) =
        st.done.map (fun o => (o.name, o.geometry)) ++
          [(name, st.current_object.geometry)]) ∧
    ObjParser.parse inputFacesThenO none = .ok ⟨[meshBothFaces], ∅, ∅⟩ ∧
    ObjParser.parse inputOThenFaces none = .ok ⟨[meshOneFace], ∅, ∅⟩ := by
  refine ⟨fun st name h => ?_, by decide, by decide⟩
  rw [ObjParseState.start_object, if_pos h]
  simp [ObjParseState.objects]

/-- C6, witness: renaming the fresh default state in place yields the single
pending object `(some "A", empty geometry)`. -/
theorem c6_witness :
    (ObjParseState.new.start_object (some (str "A")) true).objects.map
        (fun o => (o.name, o.geometry)) =
      [(some (str "A"), ObjGeometry.new)] :=
  (c6_object_segmentation.1 ObjParseState.new (some (str "A")) rfl).trans (by decide)

/-! ### C10 -/

lemma pushPosition_pushPosition (st : ObjParseState) (l1 l2 : List Rat) :
    (st.pushPosition l1).pushPosition l2 = st.pushPosition (l1 ++ l2) := by
  simp [ObjParseState.pushPosition]

lemma composite_done (st : ObjParseState) (p u m : List Rat) :
    (((st.pushPosition p).pushUv u).pushNormal m).done = st.done := rfl

lemma composite_current (st : ObjParseState) (p u m : List Rat) :
    (((st.pushPosition p).pushUv u).pushNormal m).current_object =
      ⟨st.current_object.name, st.current_object.from_declaration,
        ⟨st.current_object.geometry.position ++ p,
         st.current_object.geometry.normal ++ m,
         st.current_object.geometry.uv ++ u⟩⟩ := rfl

lemma add_vertex_ok_shape {st st' : ObjParseState} {v1 v2 v3 : Int}
    (h : st.add_vertex v1 v2 v3 = (st', none)) :
    ∃ p : List Rat, p.length = 9 ∧ st' = st.pushPosition p := by
  rw [ObjParseState.add_vertex] at h
  rcases h1 : readEntry3 st.vertices (st.vertex_reference_to_index v1) with _ | e1 <;>
    rw [h1] at h <;> simp only [Prod.mk.injEq] at h
  · cases h.2
  · rcases h2 : readEntry3 st.vertices (st.vertex_reference_to_index v2) with _ | e2 <;>
      rw [h2] at h <;> simp only [Prod.mk.injEq] at h
    · cases h.2
    · rcases h3 : readEntry3 st.vertices (st.vertex_reference_to_index v3) with _ | e3 <;>
        rw [h3] at h <;> simp only [Prod.mk.injEq] at h
      · cases h.2
      · refine ⟨[e1.1, e1.2.1, e1.2.2, e2.1, e2.2.1, e2.2.2, e3.1, e3.2.1, e3.2.2],
          rfl, ?_⟩
        rw [← h.1, pushPosition_pushPosition, pushPosition_pushPosition]
        rfl

lemma add_uv_ok_shape {st st' : ObjParseState} {t1 t2 t3 : Int}
    (h : st.add_uv t1 t2 t3 = (st', none)) :
    ∃ u : List Rat, u.length = 6 ∧ st' = st.pushUv u := by
  rw [ObjParseState.add_uv] at h
  rcases h1 : readEntry2 st.uvs (st.uv_reference_to_index t1) with _ | e1 <;>
    rw [h1] at h <;> simp only [Prod.mk.injEq] at h
  · cases h.2
  · rcases h2 : readEntry2 st.uvs (st.uv_reference_to_index t2) with _ | e2 <;>
      rw [h2] at h <;> simp only [Prod.mk.injEq] at h
    · cases h.2
    · rcases h3 : readEntry2 st.uvs (st.uv_reference_to_index t3) with _ | e3 <;>
        rw [h3] at h <;> simp only [Prod.mk.injEq] at h
      · cases h.2
      · exact ⟨[e1.1, e1.2, e2.1, e2.2, e3.1, e3.2], rfl, h.1.symm⟩

lemma add_normal_ok_shape {st st' : ObjParseState} {n1 n2 n3 : Int}
    (h : st.add_normal n1 n2 n3 = (st', none)) :
    ∃ m : List Rat, m.length = 9 ∧ st' = st.pushNormal m := by
  rw [ObjParseState.add_normal] at h
  rcases h1 : readEntry3 st.normals (st.normal_reference_to_index n1) with _ | e1 <;>
    rw [h1] at h <;> simp only [Prod.mk.injEq] at h
  · cases h.2
  · rcases h2 : readEntry3 st.normals (st.normal_reference_to_index n2) with _ | e2 <;>
      rw [h2] at h <;> simp only [Prod.mk.injEq] at h
    · cases h.2
    · rcases h3 : readEntry3 st.normals (st.normal_reference_to_index n3) with _ | e3 <;>
        rw [h3] at h <;> simp only [Prod.mk.injEq] at h
      · cases h.2
      · exact ⟨[e1.1, e1.2.1, e1.2.2, e2.1, e2.2.1, e2.2.2, e3.1, e3.2.1, e3.2.2],
          rfl, h.1.symm⟩

lemma addFaceNormalPart_ok_shape {st st' : ObjParseState} {evt : Option Int}
    {vn : Option (Int × Int × Int)} {b : Bool} {evt' evn' : Option Int}
    (h : addFaceNormalPart st evt vn b = .ok st' evt' evn') :
    ∃ m : List Rat, m.length = 9 ∧ st' = st.pushNormal m ∧ evt' = evt := by
  rw [addFaceNormalPart.eq_def] at h
  rcases vn with _ | g
  · cases h
  · simp only at h
    rcases hn : st.add_normal g.1 g.2.1 g.2.2 with ⟨st2, o⟩
    rw [hn] at h
    rcases o with _ | rr
    · simp only at h
      injection h with a1 a2 a3
      obtain ⟨m, hm, hst⟩ := add_normal_ok_shape hn
      exact ⟨m, hm, by rw [← a1, hst], a2.symm⟩
    · rcases b <;> simp only at h <;> cases h

lemma add_face_ok_shape {st st' : ObjParseState} {v : Int × Int × Int}
    {vt vn : Option (Int × Int × Int)} {b : Bool} {evt evn : Option Int}
    (h : st.add_face v vt vn b = .ok st' evt evn) :
    ∃ p u m : List Rat, p.length = 9 ∧ u.length = 6 ∧ m.length = 9 ∧
      st' = ((st.pushPosition p).pushUv u).pushNormal m := by
  rw [ObjParseState.add_face] at h
  rcases hv : st.add_vertex v.1 v.2.1 v.2.2 with ⟨st1, o⟩
  rw [hv] at h
  rcases o with _ | rv
  · simp only at h
    obtain ⟨p, hp, hst1⟩ := add_vertex_ok_shape hv
    subst hst1
    rcases vt with _ | t
    · obtain ⟨m, hm, hst', -⟩ := addFaceNormalPart_ok_shape h
      exact ⟨p, [0, 0, 0, 0, 0, 0], m, hp, rfl, hm, hst'⟩
    · simp only at h
      rcases hu : (st.pushPosition p).add_uv t.1 t.2.1 t.2.2 with ⟨st2, o2⟩
      rw [hu] at h
      rcases o2 with _ | ru
      · simp only at h
        obtain ⟨u, hu6, hst2⟩ := add_uv_ok_shape hu
        obtain ⟨m, hm, hst', -⟩ := addFaceNormalPart_ok_shape h
        exact ⟨p, u, m, hp, hu6, hm, by rw [hst', hst2]⟩
      · have hst2 : st2 = st.pushPosition p := by
          have h5 := add_uv_fst_of_err (st.pushPosition p) t.1 t.2.1 t.2.2 (by rw [hu])
          rw [hu] at h5
          exact h5
        subst hst2
        rcases b
        · simp only at h
          obtain ⟨m, hm, hst', -⟩ := addFaceNormalPart_ok_shape h
          exact ⟨p, [0, 0, 0, 0, 0, 0], m, hp, rfl, hm, hst'⟩
        · simp only at h
          cases h
  · simp only at h
    cases h

/-- Invariant of one attribute set: the three streams describe the same
whole number of triangles. -/
def TriBalanced (g : ObjGeometry) : Prop :=
  ∃ k, g.position.length = 9 * k ∧ g.uv.length = 6 * k ∧ g.normal.length = 9 * k

/-- Parse-state invariant: every pending object is stream-balanced. -/
def StInv (st : ObjParseState) : Prop :=
  ∀ o ∈ st.objects, TriBalanced o.geometry

lemma stInv_new : StInv ObjParseState.new := by
  intro o ho
  have hobj : ObjParseState.new.objects = [ObjObject.mkDefault] := rfl
  rw [hobj, List.mem_singleton] at ho
  subst ho
  exact ⟨0, rfl, rfl, rfl⟩

lemma current_mem_objects (st : ObjParseState) : st.current_object ∈ st.objects := by
  rw [ObjParseState.objects]
  exact List.mem_append_right _ (List.mem_singleton_self _)

lemma done_mem_objects {st : ObjParseState} {o : ObjObject} (h : o ∈ st.done) :
    o ∈ st.objects := by
  rw [ObjParseState.objects]
  exact List.mem_append_left _ h

lemma stInv_add_face {st st' : ObjParseState} {v : Int × Int × Int}
    {vt vn : Option (Int × Int × Int)} {b : Bool} {evt evn : Option Int}
    (hinv : StInv st) (h : st.add_face v vt vn b = .ok st' evt evn) : StInv st' := by
  obtain ⟨p, u, m, hp, hu, hm, rfl⟩ := add_face_ok_shape h
  intro o ho
  rw [ObjParseState.objects, composite_done, composite_current] at ho
  rcases List.mem_append.mp ho with hdone | hcur
  · exact hinv o (done_mem_objects hdone)
  · simp only [List.mem_singleton] at hcur
    subst hcur
    obtain ⟨k, h9, h6, h9n⟩ := hinv st.current_object (current_mem_objects st)
    refine ⟨k + 1, ?_, ?_, ?_⟩
    · simp only [List.length_append, h9, hp]
      ring
    · simp only [List.length_append, h6, hu]
      ring
    · simp only [List.length_append, h9n, hm]
      ring

lemma stInv_start_object {st : ObjParseState} (hinv : StInv st)
    (name : Option Str) (fd : Bool) : StInv (st.start_object name fd) := by
  rw [ObjParseState.start_object]
  split
  · intro o ho
    rw [ObjParseState.objects] at ho
    rcases List.mem_append.mp ho with hdone | hcur
    · exact hinv o (done_mem_objects hdone)
    · simp only [List.mem_singleton] at hcur
      subst hcur
      exact hinv st.current_object (current_mem_objects st)
  · intro o ho
    rw [ObjParseState.objects] at ho
    rcases List.mem_append.mp ho with hold | hnew
    · exact hinv o (by rw [ObjParseState.objects]; exact hold)
    · simp only [List.mem_singleton] at hnew
      subst hnew
      exact ⟨0, rfl, rfl, rfl⟩

lemma stInv_processFaceWindows (opts : ObjParseOptions) (line_num : Nat)
    (a : List Str) (ws : List (List Str × List Str)) :
    ∀ (st : ObjParseState) (du dn : Finset Int) (st' : ObjParseState)
      (du' dn' : Finset Int), StInv st →
      processFaceWindows opts line_num a ws st du dn = .ok (st', du', dn') →
      StInv st' := by
  induction ws with
  | nil =>
    intro st du dn st' du' dn' hinv h
    rw [processFaceWindows] at h
    simp only [PResult.ok.injEq, Prod.mk.injEq] at h
    obtain ⟨h1, -, -⟩ := h
    subst h1
    exact hinv
  | cons w ws ih =>
    intro st du dn st' du' dn' hinv h
    rcases w with ⟨b, c⟩
    rw [processFaceWindows] at h
    rcases hseg : segTriple a b c 0 with _ | v <;> rw [hseg] at h
    · exact ih st du dn st' du' dn' hinv h
    · simp only at h
      rcases hf : st.add_face v (segTriple a b c 1) (segTriple a b c 2)
          opts.error_on_invalid_reference_number with
        ⟨st2, evt, evn⟩ | ⟨st2, ty, r⟩ | msg <;> rw [hf] at h <;> simp only at h
      · exact ih _ _ _ _ _ _ (stInv_add_face hinv hf) h
      · cases h
      · cases h

lemma stInv_processFace {opts : ObjParseOptions} {line_num : Nat}
    {corners : List (List Str)} {st : ObjParseState} {du dn : Finset Int}
    {st' : ObjParseState} {du' dn' : Finset Int} (hinv : StInv st)
    (h : processFace opts line_num corners st du dn = .ok (st', du', dn')) :
    StInv st' := by
  rcases corners with _ | ⟨a, rest⟩
  · rw [processFace] at h
    simp only [PResult.ok.injEq, Prod.mk.injEq] at h
    obtain ⟨h1, -, -⟩ := h
    subst h1
    exact hinv
  · rw [processFace] at h
    exact stInv_processFaceWindows opts line_num a (windows2 rest) st du dn st' du' dn'
      hinv h

lemma stInv_processLine {opts : ObjParseOptions} {line_num : Nat} {line : Str}
    {st : ObjParseState} {du dn : Finset Int} {st' : ObjParseState}
    {du' dn' : Finset Int} (hinv : StInv st)
    (h : processLine opts line_num line st du dn = .ok (st', du', dn')) :
    StInv st' := by
  rw [processLine] at h
  rcases hsw : split_whitespace line with _ | ⟨command, args⟩ <;> rw [hsw] at h <;>
    simp only at h
  · simp only [PResult.ok.injEq, Prod.mk.injEq] at h
    obtain ⟨h1, -, -⟩ := h
    subst h1
    exact hinv
  · by_cases hc1 : command = str "v"
    · rw [if_pos hc1] at h
      rcases e0 : (args.get? 0).bind parse_f32 with _ | x <;>
        rcases e1 : (args.get? 1).bind parse_f32 with _ | y <;>
        rcases e2 : (args.get? 2).bind parse_f32 with _ | z <;>
        rw [e0, e1, e2] at h <;> simp only at h
      all_goals cases h
      all_goals exact hinv
    · rw [if_neg hc1] at h
      by_cases hc2 : command = str "vn"
      · rw [if_pos hc2] at h
        rcases e0 : (args.get? 0).bind parse_f32 with _ | x <;>
          rcases e1 : (args.get? 1).bind parse_f32 with _ | y <;>
          rcases e2 : (args.get? 2).bind parse_f32 with _ | z <;>
          rw [e0, e1, e2] at h <;> simp only at h
        all_goals cases h
        all_goals exact hinv
      · rw [if_neg hc2] at h
        by_cases hc3 : command = str "vt"
        · rw [if_pos hc3] at h
          rcases e0 : (args.get? 0).bind parse_f32 with _ | x <;>
            rcases e1 : (args.get? 1).bind parse_f32 with _ | y <;>
            rw [e0, e1] at h <;> simp only at h
          all_goals cases h
          all_goals exact hinv
        · rw [if_neg hc3] at h
          by_cases hc4 : command = str "f"
          · rw [if_pos hc4] at h
            exact stInv_processFace hinv h
          · rw [if_neg hc4] at h
            by_cases hc5 : command = str "o" ∨ command = str "g"
            · rw [if_pos hc5] at h
              simp only [PResult.ok.injEq, Prod.mk.injEq] at h
              obtain ⟨h1, -, -⟩ := h
              subst h1
              exact stInv_start_object hinv _ _
            · rw [if_neg hc5] at h
              by_cases hc6 : opts.error_on_unsupported_data_types = true
              · rw [if_pos hc6] at h
                cases h
              · rw [if_neg hc6] at h
                simp only [PResult.ok.injEq, Prod.mk.injEq] at h
                obtain ⟨h1, -, -⟩ := h
                subst h1
                exact hinv

lemma stInv_parseLines (opts : ObjParseOptions) (ls : List Str) :
    ∀ (line_num : Nat) (st : ObjParseState) (du dn : Finset Int)
      (st' : ObjParseState) (du' dn' : Finset Int), StInv st →
      parseLines opts ls line_num st du dn = .ok (st', du', dn') → StInv st' := by
  induction ls with
  | nil =>
    intro n st du dn st' du' dn' hinv h
    rw [parseLines] at h
    simp only [PResult.ok.injEq, Prod.mk.injEq] at h
    obtain ⟨h1, -, -⟩ := h
    subst h1
    exact hinv
  | cons l ls ih =>
    intro n st du dn st' du' dn' hinv h
    rw [parseLines] at h
    rcases hpl : processLine opts n l st du dn with ⟨st1, du1, dn1⟩ | e | msg <;>
      rw [hpl] at h <;> simp only at h
    · exact ih _ _ _ _ _ _ _ (stInv_processLine hinv hpl) h
    · cases h
    · cases h

/-- C10: on a successful parse every emitted mesh describes a whole positive
number of triangles—`9 * k` position components, `6 * k` uv components and
`9 * k` normal components for the same `k ≥ 1`—because each committed
triangle appends exactly 9 position, 6 uv and 9 normal components to the
current object's streams. -/
theorem c10_whole_triangle_streams :
    (∀ (text : Str) (options : Option ObjParseOptions) (res : ObjParseResult),
      ObjParser.parse text options = .ok res →
      ∀ m ∈ res.meshes, ∃ k, 1 ≤ k ∧ m.position.length = 9 * k ∧
        m.uv.length = 6 * k ∧ m.normal.length = 9 * k) ∧
    (∀ (st : ObjParseState) (v : Int × Int × Int)
      (vt vn : Option (Int × Int × Int)) (b : Bool) (st' : ObjParseState)
      (evt evn : Option Int),
      st.add_face v vt vn b = .ok st' evt evn →
      st'.current_object.geometry.position.length =
        st.current_object.geometry.position.length + 9 ∧
      st'.current_object.geometry.uv.length =
        st.current_object.geometry.uv.length + 6 ∧
      st'.current_object.geometry.normal.length =
        st.current_object.geometry.normal.length + 9) := by
  constructor
  · intro text options res h
    rw [ObjParser.parse] at h
    rcases hpl : parseLines (options.getD ObjParseOptions.mkDefault) (lines text) 1
        ObjParseState.new ∅ ∅ with ⟨st, du, dn⟩ | e | msg <;>
      rw [hpl] at h <;> simp only at h
    · injection h with h1
      subst h1
      have hinv : StInv st :=
        stInv_parseLines _ _ _ _ _ _ _ _ _ stInv_new hpl
      intro m hm
      simp only [finalizeObjects, List.mem_map, List.mem_filter,
        decide_eq_true_eq] at hm
      obtain ⟨o, ⟨ho, hne⟩, rfl⟩ := hm
      obtain ⟨k, h9, h6, h9n⟩ := hinv o ho
      refine ⟨k, ?_, h9, h6, h9n⟩
      rcases k with _ | k
      · exfalso
        exact hne (List.length_eq_zero.mp (by omega))
      · omega
    · cases h
    · cases h
  · intro st v vt vn b st' evt evn h
    obtain ⟨p, u, m, hp, hu, hm, rfl⟩ := add_face_ok_shape h
    rw [composite_current]
    refine ⟨?_, ?_, ?_⟩ <;> simp [hp, hu, hm]

/-- C10, witness: the quad example's single mesh has the balanced stream
lengths 18 = 9·2, 12 = 6·2 and 18 = 9·2. -/
theorem c10_witness :
    ∀ m ∈ (⟨[⟨none,
        [0, 0, 0, 1, 0, 0, 1, 1, 0, 0, 0, 0, 1, 1, 0, 0, 1, 0],
        [0, 0, 1, 0, 0, 1, 0, 0, 1, 0, 0, 1, 0, 0, 1, 0, 0, 1],
        [0, 0, 0, 0, 0, 0, 0, 0, 0, 0, 0, 0]⟩], ∅, ∅⟩ : ObjParseResult).meshes,
      ∃ k, 1 ≤ k ∧ m.position.length = 9 * k ∧ m.uv.length = 6 * k ∧
        m.normal.length = 9 * k :=
  c10_whole_triangle_streams.1
    (str "v 0 0 0\nv 1 0 0\nv 1 1 0\nv 0 1 0\nvn 0 0 1\nf 1//1 2//1 3//1 4//1")
    none _ (by decide)

end PoliGon
